import Mathlib

/-
Verification of the httpsession middleware (package httpsession,
files httpsession.go and memorystore.go).

Modelling conventions:
- time.Time and time.Duration are modelled as Int, in whole seconds.
  t1.After t2 is t1 > t2, t1.Before t2 is t1 < t2, t.Add d is t + d,
  and int(d.Seconds()) for a whole-second duration is the Int itself.
  The zero time.Time is 0.  The registry's now function is modelled as a
  constant per request (as the package's own tests do with a fixed now).
- Go panics are modelled as Except.error carrying the panic message.
- The request context is modelled as Option (Record T): the value stored
  under recordContextKey, or none when the middleware was not used.
- Store errors are Go error values, modelled as Option String
  (none = nil error).
- rand.Text is modelled by the configuration field freshId.
-/

set_option autoImplicit false

namespace HttpSession

/-- Record mirrors httpsession.Record: the persisted session state plus the
two unexported request-scoped flags. -/
structure Record (T : Type) where
  id : String
  idleDeadline : Int
  absoluteDeadline : Int
  session : T
  deleted : Bool
  readOnly : Bool
deriving DecidableEq, Repr

/-- The SessionStore configuration fields the save protocol reads:
IdleTimeout, AbsoluteTimeout, the (fixed) now, the next rand.Text value,
and the Value field of the SetCookie template. -/
structure Config where
  idleTimeout : Int
  absoluteTimeout : Int
  now : Int
  freshId : String
  templValue : String
deriving DecidableEq, Repr

/-- The two Set-Cookie fields the middleware computes: Value and MaxAge. -/
structure Cookie where
  value : String
  maxAge : Int
deriving DecidableEq, Repr

/-- A mutating call made to the backing Store (Save or Delete).  Load and
DeleteExpired are never reachable from the handler-facing operations. -/
inductive StoreCall (T : Type) where
  | save (r : Record T)
  | delete (id : String)
deriving DecidableEq, Repr

/-- The two Store methods the registry calls after the load phase, as a
state-passing interface: a call returns the new store state and the Go
error value (none = nil). -/
structure Store (T : Type) (σ : Type) where
  save : σ → Record T → σ × Option String
  delete : σ → String → σ × Option String

/-- The operations a handler can perform during one request: the four
handle operations (Get carries the mutation the handler applies through
the returned pointer; Renew carries the requested new id, "" meaning
rand.Text) and the two ResponseWriter calls (Write carries the byte count,
WriteHeader the status code). -/
inductive HandlerOp (T : Type) where
  | get (f : T → T)
  | read
  | delete
  | renew (id : String)
  | write (n : Nat)
  | writeHeader (code : Nat)

def HandlerOp.isWriteOp {T : Type} : HandlerOp T → Bool
  | .write _ => true
  | .writeHeader _ => true
  | _ => false

def HandlerOp.isDeleteOp {T : Type} : HandlerOp T → Bool
  | .delete => true
  | _ => false

def HandlerOp.isGetOp {T : Type} : HandlerOp T → Bool
  | .get _ => true
  | _ => false

def StoreCall.isSave {T : Type} : StoreCall T → Bool
  | .save _ => true
  | _ => false

/-- Number of Store.Save calls in a trace. -/
def countSaves {T : Type} (t : List (StoreCall T)) : Nat :=
  t.countP (·.isSave)

def middlewarePanicMsg : String := "httpsession: middleware was not used"

def deletedPanicMsg : String := "httpsession: session alreadly deleted"

def conflictErrMsg : String := "httpsession: active session alreadly exists"

def writePanicMsg : String :=
  "httpsession: (ResponseWriter).Write was called after a call to ErrorHandler"

def writeHeaderPanicMsg : String :=
  "httpsession: (ResponseWriter).WriteHeader was called after a call to ErrorHandler"

/-- recordFromContext: returns the record stored in the context, panicking
(Except.error) when the middleware was not used. -/
def recordFromContext {T : Type} : Option (Record T) → Except String (Record T)
  | none => .error middlewarePanicMsg
  | some r => .ok r

/-- SessionStore.Get: panics outside a wrapped request and after deletion;
otherwise clears readOnly and hands out the session pointer (the returned
record is the record after the call). -/
def mGet {T : Type} (ctx : Option (Record T)) : Except String (Record T) :=
  (recordFromContext ctx).bind fun r =>
    if r.deleted then .error deletedPanicMsg
    else .ok { r with readOnly := false }

/-- SessionStore.Read: panics outside a wrapped request and after deletion;
otherwise returns the record unchanged (readOnly is not cleared). -/
def mRead {T : Type} (ctx : Option (Record T)) : Except String (Record T) :=
  (recordFromContext ctx).bind fun r =>
    if r.deleted then .error deletedPanicMsg
    else .ok r

/-- SessionStore.ID: panics outside a wrapped request; performs no deleted
check and returns the record's ID. -/
def mID {T : Type} (ctx : Option (Record T)) : Except String String :=
  (recordFromContext ctx).bind fun r => .ok r.id

/-- SessionStore.Delete: calls Store.Delete with the record's ID at once;
on a nil error it marks the record deleted.  The result is the new store
state, the record after the call and the error returned to the handler. -/
def mDelete {T σ : Type} (S : Store T σ) (st : σ) (ctx : Option (Record T)) :
    Except String (σ × Record T × Option String) :=
  (recordFromContext ctx).bind fun r =>
    let p := S.delete st r.id
    match p.2 with
    | some e => .ok (p.1, r, some e)
    | none => .ok (p.1, { r with deleted := true }, none)

/-- SessionStore.Renew: calls Store.Delete with the old ID at once; on a
nil error it installs the new id ("" means rand.Text), resets
AbsoluteDeadline to now + AbsoluteTimeout and clears readOnly. -/
def mRenew {T σ : Type} (S : Store T σ) (cfg : Config) (st : σ)
    (ctx : Option (Record T)) (id : String) :
    Except String (σ × Record T × Option String) :=
  (recordFromContext ctx).bind fun r =>
    let p := S.delete st r.id
    match p.2 with
    | some e => .ok (p.1, r, some e)
    | none =>
      let idNew := if id = "" then cfg.freshId else id
      .ok (p.1, { r with id := idNew,
                         absoluteDeadline := cfg.now + cfg.absoluteTimeout,
                         readOnly := false }, none)

/-- The deadline update performed by SessionStore.saveRecord before it
calls Store.Save: IdleDeadline becomes now + IdleTimeout, capped at
AbsoluteDeadline. -/
def saveRecordDeadline {T : Type} (cfg : Config) (r : Record T) : Record T :=
  if r.absoluteDeadline < cfg.now + cfg.idleTimeout
  then { r with idleDeadline := r.absoluteDeadline }
  else { r with idleDeadline := cfg.now + cfg.idleTimeout }

/-- SessionStore.setCookie: Value is the record's ID, MaxAge the seconds
from now until IdleDeadline. -/
def setCookie {T : Type} (cfg : Config) (r : Record T) : Cookie :=
  { value := r.id, maxAge := r.idleDeadline - cfg.now }

/-- SessionStore.deleteCookie: the template cookie with MaxAge -1. -/
def deleteCookie (cfg : Config) : Cookie :=
  { value := cfg.templValue, maxAge := -1 }

/-- The observable per-request state threaded through handler execution:
the context record, the backing store state, the sessionWriter flags done
and failed, the emitted Set-Cookie headers, the byte counts and status
codes delegated to the underlying ResponseWriter, the error-handler
invocations, the slog error lines, and the trace of Store calls. -/
structure ReqState (T σ : Type) where
  record : Record T
  store : σ
  done : Bool
  failed : Bool
  cookies : List Cookie
  body : List Nat
  headers : List Nat
  errCalls : List String
  logs : List String
  trace : List (StoreCall T)

/-- sessionWriter.Write.  The branches mirror the source: a panic once
failed; pure delegation once done; the deleted branch emits the deletion
cookie; the dirty branch runs saveRecord and either fails (ErrorHandler,
failed flag, bytes discarded with a nil error) or emits the cookie; the
readOnly branch only marks done.  Delegation appends the byte count. -/
def swWrite {T σ : Type} (S : Store T σ) (cfg : Config) (s : ReqState T σ)
    (n : Nat) : ReqState T σ × Option String :=
  if s.failed then (s, some writePanicMsg)
  else if s.done then ({ s with body := s.body ++ [n] }, none)
  else if s.record.deleted then
    ({ s with cookies := s.cookies ++ [deleteCookie cfg],
              done := true, body := s.body ++ [n] }, none)
  else if s.record.readOnly then
    ({ s with done := true, body := s.body ++ [n] }, none)
  else
    let r1 := saveRecordDeadline cfg s.record
    let s1 := { s with record := r1, store := (S.save s.store r1).1,
                       trace := s.trace ++ [StoreCall.save r1] }
    match (S.save s.store r1).2 with
    | some e => ({ s1 with errCalls := s1.errCalls ++ [e], failed := true }, none)
    | none => ({ s1 with cookies := s1.cookies ++ [setCookie cfg r1],
                         done := true, body := s1.body ++ [n] }, none)

/-- sessionWriter.WriteHeader, same protocol as Write with the status code
delegated instead of body bytes. -/
def swWriteHeader {T σ : Type} (S : Store T σ) (cfg : Config) (s : ReqState T σ)
    (c : Nat) : ReqState T σ × Option String :=
  if s.failed then (s, some writeHeaderPanicMsg)
  else if s.done then ({ s with headers := s.headers ++ [c] }, none)
  else if s.record.deleted then
    ({ s with cookies := s.cookies ++ [deleteCookie cfg],
              done := true, headers := s.headers ++ [c] }, none)
  else if s.record.readOnly then
    ({ s with done := true, headers := s.headers ++ [c] }, none)
  else
    let r1 := saveRecordDeadline cfg s.record
    let s1 := { s with record := r1, store := (S.save s.store r1).1,
                       trace := s.trace ++ [StoreCall.save r1] }
    match (S.save s.store r1).2 with
    | some e => ({ s1 with errCalls := s1.errCalls ++ [e], failed := true }, none)
    | none => ({ s1 with cookies := s1.cookies ++ [setCookie cfg r1],
                         done := true, headers := s1.headers ++ [c] }, none)

/-- One handler operation.  Get, Read, Delete and Renew act through the
context (always populated inside the wrapped handler); the Store.Delete
calls made by Delete and Renew are recorded in the trace.  A returned
message is a propagating panic. -/
def execOp {T σ : Type} (S : Store T σ) (cfg : Config) (op : HandlerOp T)
    (s : ReqState T σ) : ReqState T σ × Option String :=
  match op with
  | .get f =>
    match mGet (some s.record) with
    | .error e => (s, some e)
    | .ok r1 => ({ s with record := { r1 with session := f r1.session } }, none)
  | .read =>
    match mRead (some s.record) with
    | .error e => (s, some e)
    | .ok _ => (s, none)
  | .delete =>
    match mDelete S s.store (some s.record) with
    | .error e => (s, some e)
    | .ok q =>
      ({ s with store := q.1, record := q.2.1,
                trace := s.trace ++ [StoreCall.delete s.record.id] }, none)
  | .renew id =>
    match mRenew S cfg s.store (some s.record) id with
    | .error e => (s, some e)
    | .ok q =>
      ({ s with store := q.1, record := q.2.1,
                trace := s.trace ++ [StoreCall.delete s.record.id] }, none)
  | .write n => swWrite S cfg s n
  | .writeHeader c => swWriteHeader S cfg s c

/-- Runs the handler's operations in order, stopping at the first panic
and returning the state reached together with the panic, if any. -/
def execOps {T σ : Type} (S : Store T σ) (cfg : Config) :
    List (HandlerOp T) → ReqState T σ → ReqState T σ × Option String
  | [], s => (s, none)
  | op :: ops, s =>
    match execOp S cfg op s with
    | (s1, none) => execOps S cfg ops s1
    | (s1, some p) => (s1, some p)

/-- The code Handler runs after next.ServeHTTP returns: when the writer
neither completed the protocol nor failed, and the record is neither
readOnly nor deleted, it runs saveRecord itself; a save error is logged
via slog, and no cookie is emitted on this path. -/
def afterHandler {T σ : Type} (S : Store T σ) (cfg : Config)
    (s : ReqState T σ) : ReqState T σ :=
  if !s.done && !s.failed then
    if s.record.readOnly || s.record.deleted then s
    else
      let r1 := saveRecordDeadline cfg s.record
      let s1 := { s with record := r1, store := (S.save s.store r1).1,
                         trace := s.trace ++ [StoreCall.save r1] }
      match (S.save s.store r1).2 with
      | some e =>
        { s1 with logs := s1.logs ++ ["httpsession: failed to save a record: " ++ e] }
      | none => s1
  else s

/-- The request state at the start of handler execution. -/
def initState {T σ : Type} (r : Record T) (st : σ) : ReqState T σ :=
  { record := r, store := st, done := false, failed := false, cookies := [],
    body := [], headers := [], errCalls := [], logs := [], trace := [] }

/-- The outcome of one wrapped request: the concurrency-guard state after
the request, whether the inner handler was run, the panic propagated out
of it (if any), and the final request state. -/
structure ReqResult (T σ : Type) where
  guard : List String
  handlerRan : Bool
  panicked : Option String
  st : ReqState T σ

/-- The guarded part of Handler, from the record being resolved onwards:
active.LoadOrStore on the record's ID (conflict: ErrorHandler once, the
handler is not run, the guard is left as it was), then the handler, then
the after-handler save (skipped when the handler panicked), and finally
the deferred active.Delete of the ID captured at registration time, which
runs on every exit path including a handler panic. -/
def runRequest {T σ : Type} (S : Store T σ) (cfg : Config) (g : List String)
    (st0 : σ) (r0 : Record T) (ops : List (HandlerOp T)) : ReqResult T σ :=
  if r0.id ∈ g then
    { guard := g, handlerRan := false, panicked := none,
      st := { initState r0 st0 with errCalls := [conflictErrMsg] } }
  else
    let q := execOps S cfg ops (initState r0 st0)
    let s2 := match q.2 with
      | none => afterHandler S cfg q.1
      | some _ => q.1
    { guard := (r0.id :: g).erase r0.id, handlerRan := true,
      panicked := q.2, st := s2 }

/-- The in-memory reference store: a map from ID to a full Record copy
(including the unexported flags, as Go's struct assignment copies them). -/
structure MemStore (T : Type) where
  m : List (String × Record T)
deriving DecidableEq, Repr

def lookupRec {T : Type} : List (String × Record T) → String → Option (Record T)
  | [], _ => none
  | kv :: rest, id => if kv.1 = id then some kv.2 else lookupRec rest id

def insertRec {T : Type} : List (String × Record T) → Record T → List (String × Record T)
  | [], r => [(r.id, r)]
  | kv :: rest, r => if kv.1 = r.id then (kv.1, r) :: rest else kv :: insertRec rest r

/-- The Go zero value of Record, produced by a missed map read. -/
def zeroRecord (T : Type) [Inhabited T] : Record T :=
  { id := "", idleDeadline := 0, absoluteDeadline := 0, session := default,
    deleted := false, readOnly := false }

/-- memoryStore.Load: the map read assigns the whole stored Record to ret
(the zero Record on a miss) and found is cleared again when now is after
the stored IdleDeadline.  Returns found and the value ret holds. -/
def msLoad {T : Type} [Inhabited T] (now : Int) (s : MemStore T) (id : String) :
    Bool × Record T :=
  match lookupRec s.m id with
  | none => (false, zeroRecord T)
  | some r => if now > r.idleDeadline then (false, r) else (true, r)

/-- memoryStore.Save: a record whose IdleDeadline has already passed is
silently dropped; otherwise the full record is stored under its ID. -/
def msSave {T : Type} (now : Int) (s : MemStore T) (r : Record T) : MemStore T :=
  if now > r.idleDeadline then s else { m := insertRec s.m r }

/-- memoryStore.Delete: removes the binding for id. -/
def msDelete {T : Type} (s : MemStore T) (id : String) : MemStore T :=
  { m := s.m.filter (fun kv => !(kv.1 = id : Bool)) }

/-- memoryStore.DeleteExpired: removes every binding whose IdleDeadline
now is after. -/
def msDeleteExpired {T : Type} (now : Int) (s : MemStore T) : MemStore T :=
  { m := s.m.filter (fun kv => !(now > kv.2.idleDeadline : Bool)) }

/-- The in-memory store as the Store interface used by the save protocol
(both methods always return a nil error). -/
def memStore (T : Type) (now : Int) : Store T (MemStore T) :=
  { save := fun st r => (msSave now st r, none),
    delete := fun st id => (msDelete st id, none) }

/-- getRecord: the pooled record gets its flags reset before the load. -/
def getRecordFlags {T : Type} (r : Record T) : Record T :=
  { r with deleted := false, readOnly := true }

/-- The whole Handler pipeline over the in-memory store: getRecord, the
load phase (Store.Load only when exactly one cookie of the configured name
is present; a found load replaces the whole record with the stored copy, a
missed load leaves the zero record), the fresh-record branch (new ID,
IdleDeadline unset, AbsoluteDeadline now + AbsoluteTimeout, zero session —
the flags are not touched again), then the guarded request. -/
def runPipeline {T : Type} [Inhabited T] (cfg : Config) (g : List String)
    (ms : MemStore T) (cookieVals : List String) (r0 : Record T)
    (ops : List (HandlerOp T)) : ReqResult T (MemStore T) :=
  let r1 := getRecordFlags r0
  let fr : Bool × Record T :=
    match cookieVals with
    | [v] => msLoad cfg.now ms v
    | _ => (false, r1)
  let r3 := if fr.1 then fr.2
    else { fr.2 with id := cfg.freshId, idleDeadline := 0,
                     absoluteDeadline := cfg.now + cfg.absoluteTimeout,
                     session := default }
  runRequest (memStore T cfg.now) cfg g ms r3 ops

theorem saveRecordDeadline_idle {T : Type} (cfg : Config) (r : Record T) :
    (saveRecordDeadline cfg r).idleDeadline
      = min (cfg.now + cfg.idleTimeout) r.absoluteDeadline := by
  unfold saveRecordDeadline
  split <;> simp <;> omega

theorem saveRecordDeadline_abs {T : Type} (cfg : Config) (r : Record T) :
    (saveRecordDeadline cfg r).absoluteDeadline = r.absoluteDeadline := by
  unfold saveRecordDeadline
  split <;> rfl

theorem saveRecordDeadline_id {T : Type} (cfg : Config) (r : Record T) :
    (saveRecordDeadline cfg r).id = r.id := by
  unfold saveRecordDeadline
  split <;> rfl

theorem lookupRec_eq_none_of_not_mem {T : Type} (l : List (String × Record T))
    (id : String) (h : id ∉ l.map Prod.fst) : lookupRec l id = none := by
  induction l with
  | nil => rfl
  | cons kv rest ih =>
    simp only [List.map_cons, List.mem_cons] at h
    push_neg at h
    have hk : ¬ kv.1 = id := fun hc => h.1 hc.symm
    simp [lookupRec, hk, ih h.2]

theorem lookupRec_filter_none {T : Type} (p : String × Record T → Bool)
    (l : List (String × Record T)) (id : String) (h : lookupRec l id = none) :
    lookupRec (l.filter p) id = none := by
  induction l with
  | nil => rfl
  | cons kv rest ih =>
    by_cases hk : kv.1 = id
    · simp [lookupRec, hk] at h
    · simp only [lookupRec, hk, if_false] at h
      cases hp : p kv <;> simp [List.filter_cons, hp, lookupRec, hk, ih h]

theorem lookupRec_deleteExpired {T : Type} (now : Int)
    (l : List (String × Record T)) (id : String) (r : Record T)
    (hnd : (l.map Prod.fst).Nodup) :
    lookupRec (l.filter (fun kv => !(now > kv.2.idleDeadline : Bool))) id = some r
      ↔ lookupRec l id = some r ∧ ¬ now > r.idleDeadline := by
  induction l with
  | nil => simp [lookupRec]
  | cons kv rest ih =>
    simp only [List.map_cons, List.nodup_cons] at hnd
    by_cases hid : kv.1 = id
    · by_cases hexp : now > kv.2.idleDeadline
      · have hnone : lookupRec rest id = none :=
          lookupRec_eq_none_of_not_mem rest id (hid ▸ hnd.1)
        have : lookupRec (rest.filter (fun kv => !(now > kv.2.idleDeadline : Bool))) id = none :=
          lookupRec_filter_none _ rest id hnone
        simp [List.filter_cons, hexp, this, lookupRec, hid]
        intro hr
        subst hr
        exact hexp
      · simp [List.filter_cons, hexp, lookupRec, hid]
        intro hr
        subst hr
        exact le_of_not_lt hexp
    · cases hp : (!(now > kv.2.idleDeadline : Bool)) <;>
        simp [List.filter_cons, hp, lookupRec, hid, ih hnd.2]

/-- Claim C8: for the in-memory store, Load of an ID whose IdleDeadline has
passed returns not-found even though the row is still physically present;
Save of a record whose IdleDeadline has already passed silently no-ops; and
DeleteExpired removes exactly the records whose IdleDeadline has passed
while every record whose IdleDeadline has not passed survives. -/
theorem c8_memory_store_expiry {T : Type} [Inhabited T] :
    (∀ (now : Int) (s : MemStore T) (id : String) (r : Record T),
        lookupRec s.m id = some r → now > r.idleDeadline →
        (msLoad now s id).1 = false) ∧
    (∀ (now : Int) (s : MemStore T) (r : Record T),
        now > r.idleDeadline → msSave now s r = s) ∧
    (∀ (now : Int) (s : MemStore T) (id : String) (r : Record T),
        (s.m.map Prod.fst).Nodup →
        (lookupRec (msDeleteExpired now s).m id = some r
          ↔ lookupRec s.m id = some r ∧ ¬ now > r.idleDeadline)) := by
  refine ⟨?_, ?_, ?_⟩
  · intro now s id r hl hexp
    simp [msLoad, hl, hexp]
  · intro now s r hexp
    simp [msSave, hexp]
  · intro now s id r hnd
    exact lookupRec_deleteExpired now s.m id r hnd

/-- Witness for C8 at concrete inputs: an expired row is invisible to Load,
an expired Save is a no-op, and DeleteExpired keeps exactly the fresh row. -/
theorem c8_witness :
    (msLoad 10 (⟨[("a", ⟨"a", 5, 9, (0 : Int), false, false⟩)]⟩ : MemStore Int) "a").1 = false ∧
    msSave 10 (⟨[]⟩ : MemStore Int) ⟨"b", 5, 9, (0 : Int), false, false⟩ = ⟨[]⟩ ∧
    (lookupRec (msDeleteExpired 10 (⟨[("a", ⟨"a", 5, 9, (0 : Int), false, false⟩)]⟩ : MemStore Int)).m "a"
        = some ⟨"a", 5, 9, (0 : Int), false, false⟩
      ↔ lookupRec [("a", (⟨"a", 5, 9, (0 : Int), false, false⟩ : Record Int))] "a"
          = some ⟨"a", 5, 9, (0 : Int), false, false⟩ ∧ ¬ (10 : Int) > 5) := by
  refine ⟨?_, ?_, ?_⟩
  · exact c8_memory_store_expiry.1 10 _ "a" ⟨"a", 5, 9, (0 : Int), false, false⟩ rfl (by decide)
  · exact c8_memory_store_expiry.2.1 10 _ _ (by decide)
  · exact c8_memory_store_expiry.2.2 10 _ "a" _ (by decide)

/-- Claim C9: Get, Read, Delete and Renew called on a context the registry
has not wrapped panic rather than silently no-opping, and Get or Read after
Delete within the same request panic as well. -/
theorem c9_misuse_fails_loudly {T σ : Type} (S : Store T σ) (cfg : Config)
    (st : σ) (id : String) :
    mGet (none : Option (Record T)) = Except.error middlewarePanicMsg ∧
    mRead (none : Option (Record T)) = Except.error middlewarePanicMsg ∧
    mID (none : Option (Record T)) = Except.error middlewarePanicMsg ∧
    mDelete S st (none : Option (Record T)) = Except.error middlewarePanicMsg ∧
    mRenew S cfg st (none : Option (Record T)) id = Except.error middlewarePanicMsg ∧
    (∀ r : Record T, r.deleted = true →
      mGet (some r) = Except.error deletedPanicMsg ∧
      mRead (some r) = Except.error deletedPanicMsg) := by
  refine ⟨rfl, rfl, rfl, rfl, rfl, ?_⟩
  intro r h
  constructor <;> simp [mGet, mRead, recordFromContext, Except.bind, h]

/-- Witness for C9: the panics at a concrete deleted record and at the
unwrapped (empty) context. -/
theorem c9_witness :
    mGet (some (⟨"sid", 0, 0, (0 : Int), true, false⟩ : Record Int))
      = Except.error deletedPanicMsg ∧
    mRead (some (⟨"sid", 0, 0, (0 : Int), true, false⟩ : Record Int))
      = Except.error deletedPanicMsg ∧
    mID (none : Option (Record Int)) = Except.error middlewarePanicMsg := by
  have h := c9_misuse_fails_loudly
    ({ save := fun st _ => (st, none), delete := fun st _ => (st, none) } : Store Int Unit)
    ⟨1, 1, 0, "f", ""⟩ () "x"
  exact ⟨(h.2.2.2.2.2 _ rfl).1, (h.2.2.2.2.2 _ rfl).2, h.2.2.1⟩

/-- Claim C10: ID performs no deleted check: on a record Delete has already
marked deleted it returns the record's ID where Get and Read panic. -/
theorem c10_id_skips_deleted_check {T : Type} :
    ∀ r : Record T,
      mID (some { r with deleted := true }) = Except.ok r.id ∧
      mGet (some { r with deleted := true }) = Except.error deletedPanicMsg ∧
      mRead (some { r with deleted := true }) = Except.error deletedPanicMsg := by
  intro r
  refine ⟨rfl, ?_, ?_⟩ <;> simp [mGet, mRead, recordFromContext, Except.bind]
theorem countSaves_append {T : Type} (t1 t2 : List (StoreCall T)) :
    countSaves (t1 ++ t2) = countSaves t1 + countSaves t2 := by
  simp [countSaves, List.countP_append]

theorem countSaves_append_delete {T : Type} (t : List (StoreCall T)) (id : String) :
    countSaves (t ++ [StoreCall.delete id]) = countSaves t := by
  simp [countSaves_append, countSaves, List.countP_cons, StoreCall.isSave]

theorem countSaves_append_save {T : Type} (t : List (StoreCall T)) (r : Record T) :
    countSaves (t ++ [StoreCall.save r]) = countSaves t + 1 := by
  simp [countSaves_append, countSaves, List.countP_cons, StoreCall.isSave]

theorem saveRecordDeadline_good {T : Type} (cfg : Config) (r : Record T) :
    (saveRecordDeadline cfg r).idleDeadline
        = min (cfg.now + cfg.idleTimeout) (saveRecordDeadline cfg r).absoluteDeadline ∧
    (saveRecordDeadline cfg r).idleDeadline ≤ (saveRecordDeadline cfg r).absoluteDeadline := by
  rw [saveRecordDeadline_abs, saveRecordDeadline_idle]
  exact ⟨rfl, min_le_right _ _⟩

theorem swWrite_failed {T σ : Type} (S : Store T σ) (cfg : Config)
    (s : ReqState T σ) (n : Nat) (hf : s.failed = true) :
    swWrite S cfg s n = (s, some writePanicMsg) := by
  simp [swWrite, hf]

theorem swWrite_done {T σ : Type} (S : Store T σ) (cfg : Config)
    (s : ReqState T σ) (n : Nat) (hf : s.failed = false) (hd : s.done = true) :
    swWrite S cfg s n = ({ s with body := s.body ++ [n] }, none) := by
  simp [swWrite, hf, hd]

theorem swWrite_deleted {T σ : Type} (S : Store T σ) (cfg : Config)
    (s : ReqState T σ) (n : Nat) (hf : s.failed = false) (hd : s.done = false)
    (hdel : s.record.deleted = true) :
    swWrite S cfg s n =
      ({ s with
          cookies := s.cookies ++ [deleteCookie cfg],
          done := true,
          body := s.body ++ [n] }, none) := by
  simp [swWrite, hf, hd, hdel]

theorem swWrite_readOnly {T σ : Type} (S : Store T σ) (cfg : Config)
    (s : ReqState T σ) (n : Nat) (hf : s.failed = false) (hd : s.done = false)
    (hdel : s.record.deleted = false) (hro : s.record.readOnly = true) :
    swWrite S cfg s n =
      ({ s with
          done := true,
          body := s.body ++ [n] }, none) := by
  simp [swWrite, hf, hd, hdel, hro]

theorem swWrite_dirty_err {T σ : Type} (S : Store T σ) (cfg : Config)
    (s : ReqState T σ) (n : Nat) (hf : s.failed = false) (hd : s.done = false)
    (hdel : s.record.deleted = false) (hro : s.record.readOnly = false)
    {e : String} (hsv : (S.save s.store (saveRecordDeadline cfg s.record)).2 = some e) :
    swWrite S cfg s n =
      ({ s with
          record := saveRecordDeadline cfg s.record,
          store := (S.save s.store (saveRecordDeadline cfg s.record)).1,
          trace := s.trace ++ [StoreCall.save (saveRecordDeadline cfg s.record)],
          errCalls := s.errCalls ++ [e],
          failed := true }, none) := by
  simp [swWrite, hf, hd, hdel, hro, hsv]

theorem swWrite_dirty_ok {T σ : Type} (S : Store T σ) (cfg : Config)
    (s : ReqState T σ) (n : Nat) (hf : s.failed = false) (hd : s.done = false)
    (hdel : s.record.deleted = false) (hro : s.record.readOnly = false)
    (hsv : (S.save s.store (saveRecordDeadline cfg s.record)).2 = none) :
    swWrite S cfg s n =
      ({ s with
          record := saveRecordDeadline cfg s.record,
          store := (S.save s.store (saveRecordDeadline cfg s.record)).1,
          trace := s.trace ++ [StoreCall.save (saveRecordDeadline cfg s.record)],
          cookies := s.cookies ++ [setCookie cfg (saveRecordDeadline cfg s.record)],
          done := true,
          body := s.body ++ [n] }, none) := by
  simp [swWrite, hf, hd, hdel, hro, hsv]

theorem swWriteHeader_failed {T σ : Type} (S : Store T σ) (cfg : Config)
    (s : ReqState T σ) (c : Nat) (hf : s.failed = true) :
    swWriteHeader S cfg s c = (s, some writeHeaderPanicMsg) := by
  simp [swWriteHeader, hf]

theorem swWriteHeader_done {T σ : Type} (S : Store T σ) (cfg : Config)
    (s : ReqState T σ) (c : Nat) (hf : s.failed = false) (hd : s.done = true) :
    swWriteHeader S cfg s c = ({ s with headers := s.headers ++ [c] }, none) := by
  simp [swWriteHeader, hf, hd]

theorem swWriteHeader_deleted {T σ : Type} (S : Store T σ) (cfg : Config)
    (s : ReqState T σ) (c : Nat) (hf : s.failed = false) (hd : s.done = false)
    (hdel : s.record.deleted = true) :
    swWriteHeader S cfg s c =
      ({ s with
          cookies := s.cookies ++ [deleteCookie cfg],
          done := true,
          headers := s.headers ++ [c] }, none) := by
  simp [swWriteHeader, hf, hd, hdel]

theorem swWriteHeader_readOnly {T σ : Type} (S : Store T σ) (cfg : Config)
    (s : ReqState T σ) (c : Nat) (hf : s.failed = false) (hd : s.done = false)
    (hdel : s.record.deleted = false) (hro : s.record.readOnly = true) :
    swWriteHeader S cfg s c =
      ({ s with
          done := true,
          headers := s.headers ++ [c] }, none) := by
  simp [swWriteHeader, hf, hd, hdel, hro]

theorem swWriteHeader_dirty_err {T σ : Type} (S : Store T σ) (cfg : Config)
    (s : ReqState T σ) (c : Nat) (hf : s.failed = false) (hd : s.done = false)
    (hdel : s.record.deleted = false) (hro : s.record.readOnly = false)
    {e : String} (hsv : (S.save s.store (saveRecordDeadline cfg s.record)).2 = some e) :
    swWriteHeader S cfg s c =
      ({ s with
          record := saveRecordDeadline cfg s.record,
          store := (S.save s.store (saveRecordDeadline cfg s.record)).1,
          trace := s.trace ++ [StoreCall.save (saveRecordDeadline cfg s.record)],
          errCalls := s.errCalls ++ [e],
          failed := true }, none) := by
  simp [swWriteHeader, hf, hd, hdel, hro, hsv]

theorem swWriteHeader_dirty_ok {T σ : Type} (S : Store T σ) (cfg : Config)
    (s : ReqState T σ) (c : Nat) (hf : s.failed = false) (hd : s.done = false)
    (hdel : s.record.deleted = false) (hro : s.record.readOnly = false)
    (hsv : (S.save s.store (saveRecordDeadline cfg s.record)).2 = none) :
    swWriteHeader S cfg s c =
      ({ s with
          record := saveRecordDeadline cfg s.record,
          store := (S.save s.store (saveRecordDeadline cfg s.record)).1,
          trace := s.trace ++ [StoreCall.save (saveRecordDeadline cfg s.record)],
          cookies := s.cookies ++ [setCookie cfg (saveRecordDeadline cfg s.record)],
          done := true,
          headers := s.headers ++ [c] }, none) := by
  simp [swWriteHeader, hf, hd, hdel, hro, hsv]

theorem execOp_write {T σ : Type} (S : Store T σ) (cfg : Config)
    (s : ReqState T σ) (n : Nat) :
    execOp S cfg (HandlerOp.write n) s = swWrite S cfg s n := rfl

theorem execOp_writeHeader {T σ : Type} (S : Store T σ) (cfg : Config)
    (s : ReqState T σ) (c : Nat) :
    execOp S cfg (HandlerOp.writeHeader c) s = swWriteHeader S cfg s c := rfl

theorem execOp_get_notDeleted {T σ : Type} (S : Store T σ) (cfg : Config)
    (f : T → T) (s : ReqState T σ) (hd : s.record.deleted = false) :
    execOp S cfg (HandlerOp.get f) s =
      ({ s with
          record := { s.record with
            readOnly := false,
            session := f s.record.session } }, none) := by
  simp [execOp, mGet, recordFromContext, Except.bind, hd]

theorem execOp_get_deleted {T σ : Type} (S : Store T σ) (cfg : Config)
    (f : T → T) (s : ReqState T σ) (hd : s.record.deleted = true) :
    execOp S cfg (HandlerOp.get f) s = (s, some deletedPanicMsg) := by
  simp [execOp, mGet, recordFromContext, Except.bind, hd]

theorem execOp_read_notDeleted {T σ : Type} (S : Store T σ) (cfg : Config)
    (s : ReqState T σ) (hd : s.record.deleted = false) :
    execOp S cfg HandlerOp.read s = (s, none) := by
  simp [execOp, mRead, recordFromContext, Except.bind, hd]

theorem execOp_read_deleted {T σ : Type} (S : Store T σ) (cfg : Config)
    (s : ReqState T σ) (hd : s.record.deleted = true) :
    execOp S cfg HandlerOp.read s = (s, some deletedPanicMsg) := by
  simp [execOp, mRead, recordFromContext, Except.bind, hd]

theorem execOp_delete_ok {T σ : Type} (S : Store T σ) (cfg : Config)
    (s : ReqState T σ) (hsd : (S.delete s.store s.record.id).2 = none) :
    execOp S cfg HandlerOp.delete s =
      ({ s with
          store := (S.delete s.store s.record.id).1,
          record := { s.record with deleted := true },
          trace := s.trace ++ [StoreCall.delete s.record.id] }, none) := by
  simp [execOp, mDelete, recordFromContext, Except.bind, hsd]

theorem execOp_delete_err {T σ : Type} (S : Store T σ) (cfg : Config)
    (s : ReqState T σ) {e : String}
    (hsd : (S.delete s.store s.record.id).2 = some e) :
    execOp S cfg HandlerOp.delete s =
      ({ s with
          store := (S.delete s.store s.record.id).1,
          trace := s.trace ++ [StoreCall.delete s.record.id] }, none) := by
  simp [execOp, mDelete, recordFromContext, Except.bind, hsd]

theorem execOp_renew_ok {T σ : Type} (S : Store T σ) (cfg : Config)
    (s : ReqState T σ) (id : String)
    (hsd : (S.delete s.store s.record.id).2 = none) :
    execOp S cfg (HandlerOp.renew id) s =
      ({ s with
          store := (S.delete s.store s.record.id).1,
          record := { s.record with
            id := (if id = "" then cfg.freshId else id),
            absoluteDeadline := cfg.now + cfg.absoluteTimeout,
            readOnly := false },
          trace := s.trace ++ [StoreCall.delete s.record.id] }, none) := by
  simp [execOp, mRenew, recordFromContext, Except.bind, hsd]

theorem execOp_renew_err {T σ : Type} (S : Store T σ) (cfg : Config)
    (s : ReqState T σ) (id : String) {e : String}
    (hsd : (S.delete s.store s.record.id).2 = some e) :
    execOp S cfg (HandlerOp.renew id) s =
      ({ s with
          store := (S.delete s.store s.record.id).1,
          trace := s.trace ++ [StoreCall.delete s.record.id] }, none) := by
  simp [execOp, mRenew, recordFromContext, Except.bind, hsd]

theorem afterHandler_skip {T σ : Type} (S : Store T σ) (cfg : Config)
    (s : ReqState T σ)
    (h : s.done = true ∨ s.failed = true ∨ s.record.readOnly = true ∨
      s.record.deleted = true) :
    afterHandler S cfg s = s := by
  rcases h with h | h | h | h <;> simp [afterHandler, h]

theorem afterHandler_dirty_err {T σ : Type} (S : Store T σ) (cfg : Config)
    (s : ReqState T σ) (hd : s.done = false) (hf : s.failed = false)
    (hro : s.record.readOnly = false) (hdel : s.record.deleted = false)
    {e : String} (hsv : (S.save s.store (saveRecordDeadline cfg s.record)).2 = some e) :
    afterHandler S cfg s =
      { s with
          record := saveRecordDeadline cfg s.record,
          store := (S.save s.store (saveRecordDeadline cfg s.record)).1,
          trace := s.trace ++ [StoreCall.save (saveRecordDeadline cfg s.record)],
          logs := s.logs ++ ["httpsession: failed to save a record: " ++ e] } := by
  simp [afterHandler, hd, hf, hro, hdel, hsv]

theorem afterHandler_dirty_ok {T σ : Type} (S : Store T σ) (cfg : Config)
    (s : ReqState T σ) (hd : s.done = false) (hf : s.failed = false)
    (hro : s.record.readOnly = false) (hdel : s.record.deleted = false)
    (hsv : (S.save s.store (saveRecordDeadline cfg s.record)).2 = none) :
    afterHandler S cfg s =
      { s with
          record := saveRecordDeadline cfg s.record,
          store := (S.save s.store (saveRecordDeadline cfg s.record)).1,
          trace := s.trace ++ [StoreCall.save (saveRecordDeadline cfg s.record)] } := by
  simp [afterHandler, hd, hf, hro, hdel, hsv]

theorem runRequest_conflict {T σ : Type} (S : Store T σ) (cfg : Config)
    (g : List String) (st0 : σ) (r0 : Record T) (ops : List (HandlerOp T))
    (hm : r0.id ∈ g) :
    runRequest S cfg g st0 r0 ops
      = { guard := g, handlerRan := false, panicked := none,
          st := { initState r0 st0 with errCalls := [conflictErrMsg] } } := by
  simp [runRequest, hm]

theorem runRequest_acquired {T σ : Type} (S : Store T σ) (cfg : Config)
    (g : List String) (st0 : σ) (r0 : Record T) (ops : List (HandlerOp T))
    (hm : r0.id ∉ g) :
    runRequest S cfg g st0 r0 ops
      = { guard := (r0.id :: g).erase r0.id, handlerRan := true,
          panicked := (execOps S cfg ops (initState r0 st0)).2,
          st := match (execOps S cfg ops (initState r0 st0)).2 with
            | none => afterHandler S cfg (execOps S cfg ops (initState r0 st0)).1
            | some _ => (execOps S cfg ops (initState r0 st0)).1 } := by
  simp [runRequest, hm]

theorem execOp_trace_inv {T σ : Type} (S : Store T σ) (cfg : Config)
    (op : HandlerOp T) (s : ReqState T σ)
    (h1 : countSaves s.trace ≤ 1)
    (h2 : s.done = false → s.failed = false → countSaves s.trace = 0)
    (h3 : ∀ rec : Record T, StoreCall.save rec ∈ s.trace →
        rec.idleDeadline = min (cfg.now + cfg.idleTimeout) rec.absoluteDeadline ∧
        rec.idleDeadline ≤ rec.absoluteDeadline) :
    countSaves (execOp S cfg op s).1.trace ≤ 1 ∧
    ((execOp S cfg op s).1.done = false → (execOp S cfg op s).1.failed = false →
      countSaves (execOp S cfg op s).1.trace = 0) ∧
    (∀ rec : Record T, StoreCall.save rec ∈ (execOp S cfg op s).1.trace →
        rec.idleDeadline = min (cfg.now + cfg.idleTimeout) rec.absoluteDeadline ∧
        rec.idleDeadline ≤ rec.absoluteDeadline) := by
  cases op with
  | get f =>
    cases hd : s.record.deleted with
    | false => rw [execOp_get_notDeleted S cfg f s hd]; exact ⟨h1, h2, h3⟩
    | true => rw [execOp_get_deleted S cfg f s hd]; exact ⟨h1, h2, h3⟩
  | read =>
    cases hd : s.record.deleted with
    | false => rw [execOp_read_notDeleted S cfg s hd]; exact ⟨h1, h2, h3⟩
    | true => rw [execOp_read_deleted S cfg s hd]; exact ⟨h1, h2, h3⟩
  | delete =>
    cases hsd : (S.delete s.store s.record.id).2 with
    | none =>
      rw [execOp_delete_ok S cfg s hsd]
      refine ⟨?_, ?_, ?_⟩
      · show countSaves (s.trace ++ [StoreCall.delete s.record.id]) ≤ 1
        rw [countSaves_append_delete]; exact h1
      · intro hdo hfa
        show countSaves (s.trace ++ [StoreCall.delete s.record.id]) = 0
        rw [countSaves_append_delete]; exact h2 hdo hfa
      · intro rec hmem
        have hmem2 : StoreCall.save rec ∈ s.trace ++ [StoreCall.delete s.record.id] := hmem
        rcases List.mem_append.mp hmem2 with h | h
        · exact h3 rec h
        · simp at h
    | some e =>
      rw [execOp_delete_err S cfg s hsd]
      refine ⟨?_, ?_, ?_⟩
      · show countSaves (s.trace ++ [StoreCall.delete s.record.id]) ≤ 1
        rw [countSaves_append_delete]; exact h1
      · intro hdo hfa
        show countSaves (s.trace ++ [StoreCall.delete s.record.id]) = 0
        rw [countSaves_append_delete]; exact h2 hdo hfa
      · intro rec hmem
        have hmem2 : StoreCall.save rec ∈ s.trace ++ [StoreCall.delete s.record.id] := hmem
        rcases List.mem_append.mp hmem2 with h | h
        · exact h3 rec h
        · simp at h
  | renew id =>
    cases hsd : (S.delete s.store s.record.id).2 with
    | none =>
      rw [execOp_renew_ok S cfg s id hsd]
      refine ⟨?_, ?_, ?_⟩
      · show countSaves (s.trace ++ [StoreCall.delete s.record.id]) ≤ 1
        rw [countSaves_append_delete]; exact h1
      · intro hdo hfa
        show countSaves (s.trace ++ [StoreCall.delete s.record.id]) = 0
        rw [countSaves_append_delete]; exact h2 hdo hfa
      · intro rec hmem
        have hmem2 : StoreCall.save rec ∈ s.trace ++ [StoreCall.delete s.record.id] := hmem
        rcases List.mem_append.mp hmem2 with h | h
        · exact h3 rec h
        · simp at h
    | some e =>
      rw [execOp_renew_err S cfg s id hsd]
      refine ⟨?_, ?_, ?_⟩
      · show countSaves (s.trace ++ [StoreCall.delete s.record.id]) ≤ 1
        rw [countSaves_append_delete]; exact h1
      · intro hdo hfa
        show countSaves (s.trace ++ [StoreCall.delete s.record.id]) = 0
        rw [countSaves_append_delete]; exact h2 hdo hfa
      · intro rec hmem
        have hmem2 : StoreCall.save rec ∈ s.trace ++ [StoreCall.delete s.record.id] := hmem
        rcases List.mem_append.mp hmem2 with h | h
        · exact h3 rec h
        · simp at h
  | write n =>
    rw [execOp_write]
    cases hf : s.failed with
    | true => rw [swWrite_failed S cfg s n hf]; exact ⟨h1, h2, h3⟩
    | false =>
      cases hd : s.done with
      | true =>
        rw [swWrite_done S cfg s n hf hd]
        refine ⟨h1, ?_, h3⟩
        intro hdo hfa
        simp [hd] at hdo
      | false =>
        cases hdel : s.record.deleted with
        | true =>
          rw [swWrite_deleted S cfg s n hf hd hdel]
          refine ⟨h1, ?_, h3⟩
          intro hdo hfa
          simp at hdo
        | false =>
          cases hro : s.record.readOnly with
          | true =>
            rw [swWrite_readOnly S cfg s n hf hd hdel hro]
            refine ⟨h1, ?_, h3⟩
            intro hdo hfa
            simp at hdo
          | false =>
            have hz := h2 hd hf
            cases hsv : (S.save s.store (saveRecordDeadline cfg s.record)).2 with
            | some e =>
              rw [swWrite_dirty_err S cfg s n hf hd hdel hro hsv]
              refine ⟨?_, ?_, ?_⟩
              · show countSaves
                  (s.trace ++ [StoreCall.save (saveRecordDeadline cfg s.record)]) ≤ 1
                rw [countSaves_append_save, hz]
              · intro hdo hfa
                simp at hfa
              · intro rec hmem
                have hmem2 : StoreCall.save rec ∈
                    s.trace ++ [StoreCall.save (saveRecordDeadline cfg s.record)] := hmem
                rcases List.mem_append.mp hmem2 with h | h
                · exact h3 rec h
                · rw [List.mem_singleton] at h
                  simp only [StoreCall.save.injEq] at h
                  subst h
                  exact saveRecordDeadline_good cfg s.record
            | none =>
              rw [swWrite_dirty_ok S cfg s n hf hd hdel hro hsv]
              refine ⟨?_, ?_, ?_⟩
              · show countSaves
                  (s.trace ++ [StoreCall.save (saveRecordDeadline cfg s.record)]) ≤ 1
                rw [countSaves_append_save, hz]
              · intro hdo hfa
                simp at hdo
              · intro rec hmem
                have hmem2 : StoreCall.save rec ∈
                    s.trace ++ [StoreCall.save (saveRecordDeadline cfg s.record)] := hmem
                rcases List.mem_append.mp hmem2 with h | h
                · exact h3 rec h
                · rw [List.mem_singleton] at h
                  simp only [StoreCall.save.injEq] at h
                  subst h
                  exact saveRecordDeadline_good cfg s.record
  | writeHeader c =>
    rw [execOp_writeHeader]
    cases hf : s.failed with
    | true => rw [swWriteHeader_failed S cfg s c hf]; exact ⟨h1, h2, h3⟩
    | false =>
      cases hd : s.done with
      | true =>
        rw [swWriteHeader_done S cfg s c hf hd]
        refine ⟨h1, ?_, h3⟩
        intro hdo hfa
        simp [hd] at hdo
      | false =>
        cases hdel : s.record.deleted with
        | true =>
          rw [swWriteHeader_deleted S cfg s c hf hd hdel]
          refine ⟨h1, ?_, h3⟩
          intro hdo hfa
          simp at hdo
        | false =>
          cases hro : s.record.readOnly with
          | true =>
            rw [swWriteHeader_readOnly S cfg s c hf hd hdel hro]
            refine ⟨h1, ?_, h3⟩
            intro hdo hfa
            simp at hdo
          | false =>
            have hz := h2 hd hf
            cases hsv : (S.save s.store (saveRecordDeadline cfg s.record)).2 with
            | some e =>
              rw [swWriteHeader_dirty_err S cfg s c hf hd hdel hro hsv]
              refine ⟨?_, ?_, ?_⟩
              · show countSaves
                  (s.trace ++ [StoreCall.save (saveRecordDeadline cfg s.record)]) ≤ 1
                rw [countSaves_append_save, hz]
              · intro hdo hfa
                simp at hfa
              · intro rec hmem
                have hmem2 : StoreCall.save rec ∈
                    s.trace ++ [StoreCall.save (saveRecordDeadline cfg s.record)] := hmem
                rcases List.mem_append.mp hmem2 with h | h
                · exact h3 rec h
                · rw [List.mem_singleton] at h
                  simp only [StoreCall.save.injEq] at h
                  subst h
                  exact saveRecordDeadline_good cfg s.record
            | none =>
              rw [swWriteHeader_dirty_ok S cfg s c hf hd hdel hro hsv]
              refine ⟨?_, ?_, ?_⟩
              · show countSaves
                  (s.trace ++ [StoreCall.save (saveRecordDeadline cfg s.record)]) ≤ 1
                rw [countSaves_append_save, hz]
              · intro hdo hfa
                simp at hdo
              · intro rec hmem
                have hmem2 : StoreCall.save rec ∈
                    s.trace ++ [StoreCall.save (saveRecordDeadline cfg s.record)] := hmem
                rcases List.mem_append.mp hmem2 with h | h
                · exact h3 rec h
                · rw [List.mem_singleton] at h
                  simp only [StoreCall.save.injEq] at h
                  subst h
                  exact saveRecordDeadline_good cfg s.record

theorem execOps_trace_inv {T σ : Type} (S : Store T σ) (cfg : Config)
    (ops : List (HandlerOp T)) (s : ReqState T σ)
    (h1 : countSaves s.trace ≤ 1)
    (h2 : s.done = false → s.failed = false → countSaves s.trace = 0)
    (h3 : ∀ rec : Record T, StoreCall.save rec ∈ s.trace →
        rec.idleDeadline = min (cfg.now + cfg.idleTimeout) rec.absoluteDeadline ∧
        rec.idleDeadline ≤ rec.absoluteDeadline) :
    countSaves (execOps S cfg ops s).1.trace ≤ 1 ∧
    ((execOps S cfg ops s).1.done = false → (execOps S cfg ops s).1.failed = false →
      countSaves (execOps S cfg ops s).1.trace = 0) ∧
    (∀ rec : Record T, StoreCall.save rec ∈ (execOps S cfg ops s).1.trace →
        rec.idleDeadline = min (cfg.now + cfg.idleTimeout) rec.absoluteDeadline ∧
        rec.idleDeadline ≤ rec.absoluteDeadline) := by
  induction ops generalizing s with
  | nil => exact ⟨h1, h2, h3⟩
  | cons op ops ih =>
    have H := execOp_trace_inv S cfg op s h1 h2 h3
    simp only [execOps]
    cases hq : execOp S cfg op s with
    | mk s1 p =>
      rw [hq] at H
      cases p with
      | none => exact ih s1 H.1 H.2.1 H.2.2
      | some e => exact H

theorem afterHandler_trace_inv {T σ : Type} (S : Store T σ) (cfg : Config)
    (s : ReqState T σ)
    (h1 : countSaves s.trace ≤ 1)
    (h2 : s.done = false → s.failed = false → countSaves s.trace = 0)
    (h3 : ∀ rec : Record T, StoreCall.save rec ∈ s.trace →
        rec.idleDeadline = min (cfg.now + cfg.idleTimeout) rec.absoluteDeadline ∧
        rec.idleDeadline ≤ rec.absoluteDeadline) :
    countSaves (afterHandler S cfg s).trace ≤ 1 ∧
    (∀ rec : Record T, StoreCall.save rec ∈ (afterHandler S cfg s).trace →
        rec.idleDeadline = min (cfg.now + cfg.idleTimeout) rec.absoluteDeadline ∧
        rec.idleDeadline ≤ rec.absoluteDeadline) := by
  cases hd : s.done with
  | true => rw [afterHandler_skip S cfg s (Or.inl hd)]; exact ⟨h1, h3⟩
  | false =>
    cases hf : s.failed with
    | true => rw [afterHandler_skip S cfg s (Or.inr (Or.inl hf))]; exact ⟨h1, h3⟩
    | false =>
      cases hro : s.record.readOnly with
      | true =>
        rw [afterHandler_skip S cfg s (Or.inr (Or.inr (Or.inl hro)))]
        exact ⟨h1, h3⟩
      | false =>
        cases hdel : s.record.deleted with
        | true =>
          rw [afterHandler_skip S cfg s (Or.inr (Or.inr (Or.inr hdel)))]
          exact ⟨h1, h3⟩
        | false =>
          have hz := h2 hd hf
          cases hsv : (S.save s.store (saveRecordDeadline cfg s.record)).2 with
          | some e =>
            rw [afterHandler_dirty_err S cfg s hd hf hro hdel hsv]
            refine ⟨?_, ?_⟩
            · show countSaves
                (s.trace ++ [StoreCall.save (saveRecordDeadline cfg s.record)]) ≤ 1
              rw [countSaves_append_save, hz]
            · intro rec hmem
              have hmem2 : StoreCall.save rec ∈
                  s.trace ++ [StoreCall.save (saveRecordDeadline cfg s.record)] := hmem
              rcases List.mem_append.mp hmem2 with h | h
              · exact h3 rec h
              · rw [List.mem_singleton] at h
                simp only [StoreCall.save.injEq] at h
                subst h
                exact saveRecordDeadline_good cfg s.record
          | none =>
            rw [afterHandler_dirty_ok S cfg s hd hf hro hdel hsv]
            refine ⟨?_, ?_⟩
            · show countSaves
                (s.trace ++ [StoreCall.save (saveRecordDeadline cfg s.record)]) ≤ 1
              rw [countSaves_append_save, hz]
            · intro rec hmem
              have hmem2 : StoreCall.save rec ∈
                  s.trace ++ [StoreCall.save (saveRecordDeadline cfg s.record)] := hmem
              rcases List.mem_append.mp hmem2 with h | h
              · exact h3 rec h
              · rw [List.mem_singleton] at h
                simp only [StoreCall.save.injEq] at h
                subst h
                exact saveRecordDeadline_good cfg s.record

theorem runRequest_trace_inv {T σ : Type} (S : Store T σ) (cfg : Config)
    (g : List String) (st0 : σ) (r0 : Record T) (ops : List (HandlerOp T)) :
    countSaves (runRequest S cfg g st0 r0 ops).st.trace ≤ 1 ∧
    (∀ rec : Record T, StoreCall.save rec ∈ (runRequest S cfg g st0 r0 ops).st.trace →
        rec.idleDeadline = min (cfg.now + cfg.idleTimeout) rec.absoluteDeadline ∧
        rec.idleDeadline ≤ rec.absoluteDeadline) := by
  by_cases hm : r0.id ∈ g
  · rw [runRequest_conflict S cfg g st0 r0 ops hm]
    refine ⟨?_, ?_⟩
    · show countSaves ([] : List (StoreCall T)) ≤ 1
      simp [countSaves]
    · intro rec hmem
      have hmem2 : StoreCall.save rec ∈ ([] : List (StoreCall T)) := hmem
      simp at hmem2
  · have base1 : countSaves (initState r0 st0 : ReqState T σ).trace ≤ 1 := by
      simp [initState, countSaves]
    have base2 : (initState r0 st0 : ReqState T σ).done = false →
        (initState r0 st0 : ReqState T σ).failed = false →
        countSaves (initState r0 st0 : ReqState T σ).trace = 0 := by
      intro _ _
      simp [initState, countSaves]
    have base3 : ∀ rec : Record T,
        StoreCall.save rec ∈ (initState r0 st0 : ReqState T σ).trace →
        rec.idleDeadline = min (cfg.now + cfg.idleTimeout) rec.absoluteDeadline ∧
        rec.idleDeadline ≤ rec.absoluteDeadline := by
      intro rec hmem
      simp [initState] at hmem
    have H := execOps_trace_inv S cfg ops (initState r0 st0) base1 base2 base3
    have HA := afterHandler_trace_inv S cfg (execOps S cfg ops (initState r0 st0)).1
      H.1 H.2.1 H.2.2
    rw [runRequest_acquired S cfg g st0 r0 ops hm]
    cases hq2 : (execOps S cfg ops (initState r0 st0)).2 with
    | none => exact HA
    | some e => exact ⟨H.1, H.2.2⟩

/-- Claim C3, amended: Get and Read never touch the Store; Delete and
Renew each call Store.Delete synchronously during handler execution (once
per call); and Store.Save is called at most once per request, at the
single trigger point. -/
theorem c3_store_calls_amended {T σ : Type} (S : Store T σ) (cfg : Config) :
    (∀ (s : ReqState T σ) (f : T → T),
        (execOp S cfg (HandlerOp.get f) s).1.trace = s.trace ∧
        (execOp S cfg (HandlerOp.get f) s).1.store = s.store ∧
        (execOp S cfg HandlerOp.read s).1.trace = s.trace ∧
        (execOp S cfg HandlerOp.read s).1.store = s.store) ∧
    (∀ (s : ReqState T σ) (id : String),
        (execOp S cfg HandlerOp.delete s).1.trace
          = s.trace ++ [StoreCall.delete s.record.id] ∧
        (execOp S cfg (HandlerOp.renew id) s).1.trace
          = s.trace ++ [StoreCall.delete s.record.id]) ∧
    (∀ (g : List String) (st0 : σ) (r0 : Record T) (ops : List (HandlerOp T)),
        countSaves (runRequest S cfg g st0 r0 ops).st.trace ≤ 1) := by
  refine ⟨?_, ?_, ?_⟩
  · intro s f
    cases hd : s.record.deleted with
    | false =>
      rw [execOp_get_notDeleted S cfg f s hd, execOp_read_notDeleted S cfg s hd]
      exact ⟨rfl, rfl, rfl, rfl⟩
    | true =>
      rw [execOp_get_deleted S cfg f s hd, execOp_read_deleted S cfg s hd]
      exact ⟨rfl, rfl, rfl, rfl⟩
  · intro s id
    cases hsd : (S.delete s.store s.record.id).2 with
    | none =>
      rw [execOp_delete_ok S cfg s hsd, execOp_renew_ok S cfg s id hsd]
      exact ⟨rfl, rfl⟩
    | some e =>
      rw [execOp_delete_err S cfg s hsd, execOp_renew_err S cfg s id hsd]
      exact ⟨rfl, rfl⟩
  · intro g st0 r0 ops
    exact (runRequest_trace_inv S cfg g st0 r0 ops).1

/-- Claim C6: every record the registry's save protocol passes to
Store.Save has IdleDeadline equal to min (now + IdleTimeout)
AbsoluteDeadline, and hence IdleDeadline at most AbsoluteDeadline. -/
theorem c6_saved_record_deadlines {T σ : Type} (S : Store T σ) (cfg : Config)
    (g : List String) (st0 : σ) (r0 : Record T) (ops : List (HandlerOp T)) :
    ∀ rec : Record T, StoreCall.save rec ∈ (runRequest S cfg g st0 r0 ops).st.trace →
      rec.idleDeadline = min (cfg.now + cfg.idleTimeout) rec.absoluteDeadline ∧
      rec.idleDeadline ≤ rec.absoluteDeadline :=
  (runRequest_trace_inv S cfg g st0 r0 ops).2

/-- Witness for C6: the record saved by a concrete dirty request has
IdleDeadline min (50 + 10) 150 = 60, at most its AbsoluteDeadline 150. -/
theorem c6_witness :
    (⟨"sid", 60, 150, 1, false, false⟩ : Record Int).idleDeadline
        = min ((50 : Int) + 10) (⟨"sid", 60, 150, 1, false, false⟩ : Record Int).absoluteDeadline ∧
    (⟨"sid", 60, 150, 1, false, false⟩ : Record Int).idleDeadline
        ≤ (⟨"sid", 60, 150, 1, false, false⟩ : Record Int).absoluteDeadline := by
  exact c6_saved_record_deadlines
    ({ save := fun st _ => (st, none), delete := fun st _ => (st, none) } : Store Int Unit)
    ⟨10, 100, 50, "f", ""⟩ [] () ⟨"sid", 0, 150, 0, false, true⟩
    [HandlerOp.get (fun x => x + 1), HandlerOp.write 0]
    ⟨"sid", 60, 150, 1, false, false⟩ (by decide)
/-- Counterexample to claim C3 as stated: the handle operation Delete calls
Store.Delete at once, during handler execution — the record is physically
removed from the store before any response write occurred. -/
theorem c3_counterexample :
    let s0 : ReqState Int (MemStore Int) :=
      initState ⟨"sid", 60, 150, 1, false, false⟩
        ⟨[("sid", ⟨"sid", 60, 150, 1, false, false⟩)]⟩
    let s1 := (execOp (memStore Int 50) ⟨10, 100, 50, "fresh", ""⟩ HandlerOp.delete s0).1
    s1.trace = [StoreCall.delete "sid"] ∧ s1.store.m = [] ∧ s1.done = false := by
  exact ⟨rfl, rfl, rfl⟩

/-- Counterexample to claim C4 as stated: after the save protocol failed at
the first Write (error handler invoked once, bytes discarded), the next
Write does not get silently discarded — it panics. -/
theorem c4_counterexample :
    let failS : Store Int Unit :=
      { save := fun st _ => (st, some "boom"), delete := fun st _ => (st, none) }
    let res := runRequest failS ⟨10, 100, 50, "fresh", ""⟩ [] ()
      (⟨"sid", 0, 150, 0, false, true⟩ : Record Int)
      [HandlerOp.get (fun x => x + 1), HandlerOp.write 1, HandlerOp.write 2]
    res.panicked = some writePanicMsg ∧ res.st.errCalls = ["boom"] ∧
    res.st.body = [] := by
  exact ⟨rfl, rfl, rfl⟩

/-- Counterexample to claim C5 as stated: when the handler dirties the
record and writes nothing, the after-handler save's error is only logged —
the configured error handler is never invoked, and no cookie is emitted. -/
theorem c5_counterexample :
    let failS : Store Int Unit :=
      { save := fun st _ => (st, some "boom"), delete := fun st _ => (st, none) }
    let res := runRequest failS ⟨10, 100, 50, "fresh", ""⟩ [] ()
      (⟨"sid", 0, 150, 0, false, true⟩ : Record Int)
      [HandlerOp.get (fun x => x + 1)]
    res.st.errCalls = [] ∧
    res.st.logs = ["httpsession: failed to save a record: boom"] ∧
    countSaves res.st.trace = 1 ∧
    res.st.cookies = [] := by
  exact ⟨rfl, rfl, rfl, rfl⟩

/-- Claim C7, evaluated at the failing input: request 1 (no cookie) runs
Get and Write, leaving the in-memory store a record whose stored copy has
readOnly = false; request 2 presents that cookie and its handler only calls
Read before writing — yet Store.Save is called, a Set-Cookie is emitted and
IdleDeadline is refreshed from 60 to 65, because memoryStore.Load copied
the stored readOnly = false back into the request's record. -/
theorem c7_read_only_request_still_saves :
    let cfg1 : Config := ⟨10, 100, 50, "sid", ""⟩
    let rPool : Record Int := ⟨"pool", 0, 0, 0, true, true⟩
    let ms1 := (runPipeline cfg1 [] (⟨[]⟩ : MemStore Int) [] rPool
      [HandlerOp.get (fun x => x + 1), HandlerOp.write 0]).st.store
    ms1 = ⟨[("sid", ⟨"sid", 60, 150, 1, false, false⟩)]⟩ ∧
    (let cfg2 : Config := ⟨10, 100, 55, "other", ""⟩
     let res := runPipeline cfg2 [] ms1 ["sid"] rPool [HandlerOp.read, HandlerOp.write 0]
     countSaves res.st.trace = 1 ∧
     res.st.cookies = [⟨"sid", 10⟩] ∧
     res.st.record.idleDeadline = 65 ∧
     res.panicked = none) := by
  exact ⟨rfl, rfl, rfl, rfl, rfl⟩

theorem execOps_quiet {T σ : Type} (S : Store T σ) (cfg : Config)
    (ops : List (HandlerOp T)) (s : ReqState T σ)
    (hops : ∀ op ∈ ops, op.isWriteOp = false ∧ op.isDeleteOp = false)
    (hdel : s.record.deleted = false) :
    (execOps S cfg ops s).2 = none ∧
    (execOps S cfg ops s).1.done = s.done ∧
    (execOps S cfg ops s).1.failed = s.failed ∧
    (execOps S cfg ops s).1.record.deleted = false ∧
    (execOps S cfg ops s).1.cookies = s.cookies ∧
    (execOps S cfg ops s).1.body = s.body ∧
    (execOps S cfg ops s).1.errCalls = s.errCalls ∧
    ((∃ op ∈ ops, op.isGetOp = true) → (execOps S cfg ops s).1.record.readOnly = false) ∧
    (s.record.readOnly = false → (execOps S cfg ops s).1.record.readOnly = false) := by
  induction ops generalizing s with
  | nil =>
    refine ⟨rfl, rfl, rfl, hdel, rfl, rfl, rfl, ?_, fun h => h⟩
    rintro ⟨op, hop, _⟩
    exact absurd hop (List.not_mem_nil op)
  | cons op ops ih =>
    have hop := hops op (List.mem_cons_self op ops)
    have hrest : ∀ o ∈ ops, o.isWriteOp = false ∧ o.isDeleteOp = false :=
      fun o ho => hops o (List.mem_cons_of_mem _ ho)
    simp only [execOps]
    cases op with
    | get f =>
      rw [execOp_get_notDeleted S cfg f s hdel]
      obtain ⟨q1, q2, q3, q4, q5, q6, q7, q8, q9⟩ :=
        ih ({ s with
              record := { s.record with
                readOnly := false,
                session := f s.record.session } }) hrest hdel
      exact ⟨q1, q2, q3, q4, q5, q6, q7, fun _ => q9 rfl, fun _ => q9 rfl⟩
    | read =>
      rw [execOp_read_notDeleted S cfg s hdel]
      obtain ⟨q1, q2, q3, q4, q5, q6, q7, q8, q9⟩ := ih s hrest hdel
      refine ⟨q1, q2, q3, q4, q5, q6, q7, ?_, q9⟩
      rintro ⟨o, ho, hgo⟩
      rcases List.mem_cons.mp ho with rfl | ho2
      · simp [HandlerOp.isGetOp] at hgo
      · exact q8 ⟨o, ho2, hgo⟩
    | delete => simp [HandlerOp.isDeleteOp] at hop
    | renew id =>
      cases hsd : (S.delete s.store s.record.id).2 with
      | none =>
        rw [execOp_renew_ok S cfg s id hsd]
        obtain ⟨q1, q2, q3, q4, q5, q6, q7, q8, q9⟩ :=
          ih ({ s with
            store := (S.delete s.store s.record.id).1,
            record := { s.record with
              id := (if id = "" then cfg.freshId else id),
              absoluteDeadline := cfg.now + cfg.absoluteTimeout,
              readOnly := false },
            trace := s.trace ++ [StoreCall.delete s.record.id] }) hrest hdel
        exact ⟨q1, q2, q3, q4, q5, q6, q7, fun _ => q9 rfl, fun _ => q9 rfl⟩
      | some e =>
        rw [execOp_renew_err S cfg s id hsd]
        obtain ⟨q1, q2, q3, q4, q5, q6, q7, q8, q9⟩ :=
          ih ({ s with
            store := (S.delete s.store s.record.id).1,
            trace := s.trace ++ [StoreCall.delete s.record.id] }) hrest hdel
        refine ⟨q1, q2, q3, q4, q5, q6, q7, ?_, q9⟩
        rintro ⟨o, ho, hgo⟩
        rcases List.mem_cons.mp ho with rfl | ho2
        · simp [HandlerOp.isGetOp] at hgo
        · exact q8 ⟨o, ho2, hgo⟩
    | write n => simp [HandlerOp.isWriteOp] at hop
    | writeHeader c => simp [HandlerOp.isWriteOp] at hop

/-- Claim C1: when the handler has called Get (dirtying the record), has
not called Delete, and has not yet written, the first body or header write
runs the save protocol: Store.Save is called with the record whose
IdleDeadline was just recomputed as min (now + IdleTimeout)
AbsoluteDeadline, and a Set-Cookie is emitted whose Value is the record's
(possibly renewed) ID and whose MaxAge is the seconds from now until the
new IdleDeadline.  The store's own save error is assumed nil, since on a
save error the cookie is withheld and the error handler runs instead. -/
theorem c1_get_then_first_write_saves {T σ : Type} (S : Store T σ)
    (cfg : Config) (st0 : σ) (r0 : Record T) (ops1 : List (HandlerOp T))
    (wop : HandlerOp T)
    (hops : ∀ op ∈ ops1, op.isWriteOp = false ∧ op.isDeleteOp = false)
    (hget : ∃ op ∈ ops1, op.isGetOp = true)
    (hw : wop.isWriteOp = true)
    (hdel0 : r0.deleted = false) :
    let s1 := (execOps S cfg ops1 (initState r0 st0)).1
    let r1 := saveRecordDeadline cfg s1.record
    (S.save s1.store r1).2 = none →
      (execOp S cfg wop s1).2 = none ∧
      (execOp S cfg wop s1).1.trace = s1.trace ++ [StoreCall.save r1] ∧
      r1.idleDeadline = min (cfg.now + cfg.idleTimeout) s1.record.absoluteDeadline ∧
      (execOp S cfg wop s1).1.cookies
        = s1.cookies ++ [{ value := s1.record.id, maxAge := r1.idleDeadline - cfg.now }] ∧
      (execOp S cfg wop s1).1.done = true := by
    intro s1 r1 hsv
    have Q := execOps_quiet S cfg ops1 (initState r0 st0) hops hdel0
    have hd : s1.done = false := Q.2.1
    have hf : s1.failed = false := Q.2.2.1
    have hdl : s1.record.deleted = false := Q.2.2.2.1
    have hro : s1.record.readOnly = false := Q.2.2.2.2.2.2.2.1 hget
    have hcookie : setCookie cfg (saveRecordDeadline cfg s1.record)
        = { value := s1.record.id,
            maxAge := (saveRecordDeadline cfg s1.record).idleDeadline - cfg.now } := by
      simp [setCookie, saveRecordDeadline_id]
    cases wop with
    | write n =>
      rw [execOp_write, swWrite_dirty_ok S cfg s1 n hf hd hdl hro hsv]
      refine ⟨rfl, rfl, saveRecordDeadline_idle cfg s1.record, ?_, rfl⟩
      show s1.cookies ++ [setCookie cfg (saveRecordDeadline cfg s1.record)]
          = s1.cookies
            ++ [⟨s1.record.id, (saveRecordDeadline cfg s1.record).idleDeadline - cfg.now⟩]
      rw [hcookie]
    | writeHeader c =>
      rw [execOp_writeHeader, swWriteHeader_dirty_ok S cfg s1 c hf hd hdl hro hsv]
      refine ⟨rfl, rfl, saveRecordDeadline_idle cfg s1.record, ?_, rfl⟩
      show s1.cookies ++ [setCookie cfg (saveRecordDeadline cfg s1.record)]
          = s1.cookies
            ++ [⟨s1.record.id, (saveRecordDeadline cfg s1.record).idleDeadline - cfg.now⟩]
      rw [hcookie]
    | get f => simp [HandlerOp.isWriteOp] at hw
    | read => simp [HandlerOp.isWriteOp] at hw
    | delete => simp [HandlerOp.isWriteOp] at hw
    | renew id => simp [HandlerOp.isWriteOp] at hw

/-- Witness for C1: a concrete request whose handler calls Get and then
writes; the first write saves the record with IdleDeadline 60 and emits
the cookie (Value sid, MaxAge 10). -/
theorem c1_witness :
    let S0 : Store Int Unit := { save := fun st _ => (st, none),
                                 delete := fun st _ => (st, none) }
    let cfg : Config := ⟨10, 100, 50, "f", ""⟩
    let s1 := (execOps S0 cfg [HandlerOp.get (fun x => x + 1)]
      (initState ⟨"sid", 0, 150, 0, false, true⟩ ())).1
    let r1 := saveRecordDeadline cfg s1.record
    (execOp S0 cfg (HandlerOp.write 3) s1).2 = none ∧
    (execOp S0 cfg (HandlerOp.write 3) s1).1.trace = s1.trace ++ [StoreCall.save r1] ∧
    r1.idleDeadline = min (cfg.now + cfg.idleTimeout) s1.record.absoluteDeadline ∧
    (execOp S0 cfg (HandlerOp.write 3) s1).1.cookies
      = s1.cookies ++ [{ value := s1.record.id, maxAge := r1.idleDeadline - cfg.now }] ∧
    (execOp S0 cfg (HandlerOp.write 3) s1).1.done = true := by
  intro S0 cfg s1 r1
  exact c1_get_then_first_write_saves S0 cfg () ⟨"sid", 0, 150, 0, false, true⟩
    [HandlerOp.get (fun x => x + 1)] (HandlerOp.write 3)
    (by intro op hop; simp at hop; subst hop; exact ⟨rfl, rfl⟩)
    ⟨HandlerOp.get (fun x => x + 1), by simp, rfl⟩
    rfl rfl rfl

/-- Claim C2: the winner A registers its session ID in the guard and runs
the handler; a concurrent request B for the same ID, arriving while A is
registered, does not run the handler, its error handler is invoked exactly
once with the conflict error (and B leaves the guard untouched); A's
registration is removed when A finishes, for every handler script — every
exit path, panics included.  Concurrency is modelled by evaluating B
against the guard state that holds A's registration: LoadOrStore is the
atomic step, so any overlapping interleaving is of this shape. -/
theorem c2_concurrency_guard {T σ : Type} (S : Store T σ) (cfg : Config)
    (g : List String) (stA stB : σ) (rA rB : Record T)
    (opsA opsB : List (HandlerOp T))
    (hid : rB.id = rA.id) (hg : rA.id ∉ g) :
    (runRequest S cfg g stA rA opsA).handlerRan = true ∧
    (runRequest S cfg g stA rA opsA).guard = g ∧
    (runRequest S cfg (rA.id :: g) stB rB opsB).handlerRan = false ∧
    (runRequest S cfg (rA.id :: g) stB rB opsB).panicked = none ∧
    (runRequest S cfg (rA.id :: g) stB rB opsB).guard = rA.id :: g ∧
    (runRequest S cfg (rA.id :: g) stB rB opsB).st.errCalls = [conflictErrMsg] ∧
    (runRequest S cfg (rA.id :: g) stB rB opsB).st.trace = [] ∧
    (runRequest S cfg (rA.id :: g) stB rB opsB).st.body = [] ∧
    (runRequest S cfg (rA.id :: g) stB rB opsB).st.headers = [] := by
  have hmB : rB.id ∈ rA.id :: g := by
    rw [hid]
    exact List.mem_cons_self _ _
  rw [runRequest_acquired S cfg g stA rA opsA hg,
    runRequest_conflict S cfg (rA.id :: g) stB rB opsB hmB]
  refine ⟨rfl, ?_, rfl, rfl, rfl, rfl, rfl, rfl, rfl⟩
  show (rA.id :: g).erase rA.id = g
  simp

/-- Witness for C2 at a concrete pair of same-ID requests. -/
theorem c2_witness :
    let S0 : Store Int Unit := { save := fun st _ => (st, none),
                                 delete := fun st _ => (st, none) }
    let cfg : Config := ⟨10, 100, 50, "f", ""⟩
    let rA : Record Int := ⟨"sid", 0, 150, 0, false, true⟩
    (runRequest S0 cfg [] () rA [HandlerOp.read]).handlerRan = true ∧
    (runRequest S0 cfg [] () rA [HandlerOp.read]).guard = [] ∧
    (runRequest S0 cfg ["sid"] () rA []).handlerRan = false ∧
    (runRequest S0 cfg ["sid"] () rA []).panicked = none ∧
    (runRequest S0 cfg ["sid"] () rA []).guard = ["sid"] ∧
    (runRequest S0 cfg ["sid"] () rA []).st.errCalls = [conflictErrMsg] ∧
    (runRequest S0 cfg ["sid"] () rA []).st.trace = [] ∧
    (runRequest S0 cfg ["sid"] () rA []).st.body = [] ∧
    (runRequest S0 cfg ["sid"] () rA []).st.headers = [] := by
  intro S0 cfg rA
  exact c2_concurrency_guard S0 cfg [] () () rA rA [HandlerOp.read] [] rfl
    (by decide)

/-- Claim C4, amended: the interceptor runs the save protocol at most once
(pure delegation once done); on a protocol failure the error handler is
invoked exactly once and the triggering Write's bytes are discarded with a
nil error; but a subsequent Write or WriteHeader call panics rather than
being silently discarded. -/
theorem c4_interceptor_amended {T σ : Type} (S : Store T σ) (cfg : Config)
    (s : ReqState T σ) (n c : Nat) :
    (s.failed = true →
      execOp S cfg (HandlerOp.write n) s = (s, some writePanicMsg) ∧
      execOp S cfg (HandlerOp.writeHeader c) s = (s, some writeHeaderPanicMsg)) ∧
    (s.failed = false → s.done = true →
      execOp S cfg (HandlerOp.write n) s = ({ s with body := s.body ++ [n] }, none) ∧
      execOp S cfg (HandlerOp.writeHeader c) s
        = ({ s with headers := s.headers ++ [c] }, none)) ∧
    (s.failed = false → s.done = false → s.record.deleted = false →
      s.record.readOnly = false →
      ∀ e : String, (S.save s.store (saveRecordDeadline cfg s.record)).2 = some e →
        (execOp S cfg (HandlerOp.write n) s).2 = none ∧
        (execOp S cfg (HandlerOp.write n) s).1.errCalls = s.errCalls ++ [e] ∧
        (execOp S cfg (HandlerOp.write n) s).1.failed = true ∧
        (execOp S cfg (HandlerOp.write n) s).1.body = s.body ∧
        (execOp S cfg (HandlerOp.write n) s).1.cookies = s.cookies) := by
  refine ⟨?_, ?_, ?_⟩
  · intro hf
    rw [execOp_write, swWrite_failed S cfg s n hf,
      execOp_writeHeader, swWriteHeader_failed S cfg s c hf]
    exact ⟨rfl, rfl⟩
  · intro hf hd
    rw [execOp_write, swWrite_done S cfg s n hf hd,
      execOp_writeHeader, swWriteHeader_done S cfg s c hf hd]
    exact ⟨rfl, rfl⟩
  · intro hf hd hdel hro e hsv
    rw [execOp_write, swWrite_dirty_err S cfg s n hf hd hdel hro hsv]
    exact ⟨rfl, rfl, rfl, rfl, rfl⟩

/-- Witness for C4 at concrete states: a failed interceptor panics on both
calls, a done interceptor only delegates, and a failing save invokes the
error handler once while discarding the bytes. -/
theorem c4_witness :
    let failS : Store Int Unit := { save := fun st _ => (st, some "boom"),
                                    delete := fun st _ => (st, none) }
    let cfg : Config := ⟨10, 100, 50, "f", ""⟩
    let sF : ReqState Int Unit :=
      ⟨⟨"sid", 0, 150, 0, false, false⟩, (), false, true, [], [], [], ["boom"], [], []⟩
    let sD : ReqState Int Unit :=
      ⟨⟨"sid", 60, 150, 1, false, false⟩, (), true, false, [], [], [], [], [], []⟩
    let sW : ReqState Int Unit :=
      ⟨⟨"sid", 0, 150, 1, false, false⟩, (), false, false, [], [], [], [], [], []⟩
    (execOp failS cfg (HandlerOp.write 1) sF = (sF, some writePanicMsg) ∧
      execOp failS cfg (HandlerOp.writeHeader 200) sF
        = (sF, some writeHeaderPanicMsg)) ∧
    (execOp failS cfg (HandlerOp.write 1) sD = ({ sD with body := sD.body ++ [1] }, none) ∧
      execOp failS cfg (HandlerOp.writeHeader 200) sD
        = ({ sD with headers := sD.headers ++ [200] }, none)) ∧
    ((execOp failS cfg (HandlerOp.write 1) sW).2 = none ∧
      (execOp failS cfg (HandlerOp.write 1) sW).1.errCalls = sW.errCalls ++ ["boom"] ∧
      (execOp failS cfg (HandlerOp.write 1) sW).1.failed = true ∧
      (execOp failS cfg (HandlerOp.write 1) sW).1.body = sW.body ∧
      (execOp failS cfg (HandlerOp.write 1) sW).1.cookies = sW.cookies) := by
  intro failS cfg sF sD sW
  exact ⟨(c4_interceptor_amended failS cfg sF 1 200).1 rfl,
    (c4_interceptor_amended failS cfg sD 1 200).2.1 rfl rfl,
    (c4_interceptor_amended failS cfg sW 1 200).2.2 rfl rfl rfl rfl "boom" rfl⟩

/-- Claim C5, amended: a Store.Save error occurring at the write or
header-write trigger is routed to the configured error handler; the
deferred protocol itself never calls Store.Delete; but on the path where
the handler wrote nothing, the registry saves the dirty record after the
handler returns and a save error there is only logged — the error handler
is not invoked — and no cookie is emitted on that path. -/
theorem c5_save_error_routing {T σ : Type} (S : Store T σ) (cfg : Config)
    (s : ReqState T σ) (n c : Nat) :
    (s.failed = false → s.done = false → s.record.deleted = false →
      s.record.readOnly = false →
      ∀ e : String, (S.save s.store (saveRecordDeadline cfg s.record)).2 = some e →
        (execOp S cfg (HandlerOp.write n) s).1.errCalls = s.errCalls ++ [e] ∧
        (execOp S cfg (HandlerOp.writeHeader c) s).1.errCalls = s.errCalls ++ [e]) ∧
    (s.done = false → s.failed = false → s.record.readOnly = false →
      s.record.deleted = false →
      ∀ e : String, (S.save s.store (saveRecordDeadline cfg s.record)).2 = some e →
        (afterHandler S cfg s).trace
          = s.trace ++ [StoreCall.save (saveRecordDeadline cfg s.record)] ∧
        (afterHandler S cfg s).logs
          = s.logs ++ ["httpsession: failed to save a record: " ++ e] ∧
        (afterHandler S cfg s).errCalls = s.errCalls ∧
        (afterHandler S cfg s).cookies = s.cookies) := by
  refine ⟨?_, ?_⟩
  · intro hf hd hdel hro e hsv
    rw [execOp_write, swWrite_dirty_err S cfg s n hf hd hdel hro hsv,
      execOp_writeHeader, swWriteHeader_dirty_err S cfg s c hf hd hdel hro hsv]
    exact ⟨rfl, rfl⟩
  · intro hd hf hro hdel e hsv
    rw [afterHandler_dirty_err S cfg s hd hf hro hdel hsv]
    exact ⟨rfl, rfl, rfl, rfl⟩

/-- Witness for C5 at a concrete dirty state with a failing save: the
trigger path appends to the error-handler calls, while the after-handler
path logs, leaves the error-handler calls unchanged and emits no cookie. -/
theorem c5_witness :
    let failS : Store Int Unit := { save := fun st _ => (st, some "boom"),
                                    delete := fun st _ => (st, none) }
    let cfg : Config := ⟨10, 100, 50, "f", ""⟩
    let sW : ReqState Int Unit :=
      ⟨⟨"sid", 0, 150, 1, false, false⟩, (), false, false, [], [], [], [], [], []⟩
    ((execOp failS cfg (HandlerOp.write 1) sW).1.errCalls = sW.errCalls ++ ["boom"] ∧
      (execOp failS cfg (HandlerOp.writeHeader 200) sW).1.errCalls
        = sW.errCalls ++ ["boom"]) ∧
    ((afterHandler failS cfg sW).trace
        = sW.trace ++ [StoreCall.save (saveRecordDeadline cfg sW.record)] ∧
      (afterHandler failS cfg sW).logs
        = sW.logs ++ ["httpsession: failed to save a record: " ++ "boom"] ∧
      (afterHandler failS cfg sW).errCalls = sW.errCalls ∧
      (afterHandler failS cfg sW).cookies = sW.cookies) := by
  intro failS cfg sW
  exact ⟨(c5_save_error_routing failS cfg sW 1 200).1 rfl rfl rfl rfl "boom" rfl,
    (c5_save_error_routing failS cfg sW 1 200).2 rfl rfl rfl rfl "boom" rfl⟩

end HttpSession
